import Mathlib

/-!
Verification development for the `mpaia` assistant-routing and job-scheduling
engine.  The Python sources (`src/mpaia/assistant.py`, `src/mpaia/jobs.py`,
`src/mpaia/telegram_bot.py`, `src/mpaia/bot.py`) are shallowly embedded below:
conversation memories become lists of turns, mutation becomes explicit state
passing, the LLM completion provider becomes an `Except`-valued parameter, and
dictionary / scheduler state becomes association lists with explicit success
or failure of each operation.
-/

namespace Mpaia

/-- A message role, as in `langchain`'s `ChatMessageHistory` entries
(`HumanMessage`, `AIMessage`) and system prompts. -/
inductive Role where
  | user
  | assistant
  | system
deriving DecidableEq, Repr

/-- One turn in a conversation memory: a role together with its text content. -/
structure Turn where
  role : Role
  content : String
deriving DecidableEq, Repr

/-- A `ChatMessageHistory`: the ordered list of its `.messages`. -/
abbrev Memory := List Turn

/-- `ChatMessageHistory.add_user_message`: append a user turn. -/
def addUserMessage (mem : Memory) (m : String) : Memory :=
  mem ++ [Turn.mk Role.user m]

/-- `ChatMessageHistory.add_ai_message`: append an assistant turn. -/
def addAiMessage (mem : Memory) (m : String) : Memory :=
  mem ++ [Turn.mk Role.assistant m]

/-- The last two turns of a memory (the whole memory when shorter). -/
def lastTwo (mem : Memory) : Memory :=
  mem.drop (mem.length - 2)

/-! ### Assistant variants (`src/mpaia/assistant.py`)

Each `process_message` is embedded as a pure state transformer.  A provider
call (`self.chain.ainvoke` / the SQL agent stream) is a parameter of type
`... → Except String String`: `Except.ok c` is a reply with content `c`,
`Except.error e` a raised exception whose `str(e)` is `e`.  The transformer
receives the optional caller-supplied memory (`memory` argument) and the
assistant's own private memory (`self.memory`), and returns the reply string
together with both memories after the call. -/

/-- `SimpleAssistant.process_message`: echoes the input, touches no memory. -/
def simpleRun (m : String) (extOpt : Option Memory) (priv : Memory) :
    String × Option Memory × Memory :=
  ("You said: " ++ m, extOpt, priv)

/-- `OpenAIAssistant.system_message`. -/
def openaiSystem : String :=
  "You are a helpful personal assistant called Mpaia. Your replies are short and concise."

/-- The history handed to the completion provider in
`OpenAIAssistant.process_message`: the system turn followed by the messages of
the effective memory (`memory = memory or self.memory`, where `self.memory`
has already received the user turn). -/
def openaiHistory (extOpt : Option Memory) (priv1 : Memory) : Memory :=
  Turn.mk Role.system openaiSystem :: extOpt.getD priv1

/-- `OpenAIAssistant.process_message`.  Source order: append the user turn to
`self.memory`; take the effective memory (`memory or self.memory`); build the
history; call the provider; on success append the AI turn to `self.memory` and
return its content; on any exception return the error string.  No mutator is
ever called on a caller-supplied `memory`. -/
def openaiRun (provider : String → Memory → Except String String)
    (m : String) (extOpt : Option Memory) (priv : Memory) :
    String × Option Memory × Memory :=
  let priv1 := addUserMessage priv m
  match provider m (openaiHistory extOpt priv1) with
  | Except.ok c => (c, extOpt, addAiMessage priv1 c)
  | Except.error e => ("An error occurred: " ++ e, extOpt, priv1)

/-- `DataAssistant.process_message`.  Source order: `memory = memory or
self.memory`; `memory.add_user_message(message)`;
`self.memory.add_user_message(message)`; stream the SQL agent on
`memory.messages`; return the result string, or the error string on any
exception.  No `add_ai_message` is ever performed.  When no external memory is
supplied, `memory` aliases `self.memory`, so the user turn is appended twice
to the same object. -/
def dataRun (agent : Memory → Except String String)
    (m : String) (extOpt : Option Memory) (priv : Memory) :
    String × Option Memory × Memory :=
  match extOpt with
  | some ext =>
      let ext1 := addUserMessage ext m
      let priv1 := addUserMessage priv m
      match agent ext1 with
      | Except.ok r => (r, some ext1, priv1)
      | Except.error e => ("An error occurred: " ++ e, some ext1, priv1)
  | none =>
      let priv1 := addUserMessage (addUserMessage priv m) m
      match agent priv1 with
      | Except.ok r => (r, none, priv1)
      | Except.error e => ("An error occurred: " ++ e, none, priv1)

/-! ### Assistant selection (`MultiAssistant.select_assistant`) -/

/-- The run of digits starting a list of characters. -/
def leadingDigits : List Char → List Char
  | [] => []
  | c :: cs => if c.isDigit then c :: leadingDigits cs else []

/-- `re.search(r"\d+", s)`: the first maximal digit run in `s`, if any. -/
def firstDigitRun : List Char → Option (List Char)
  | [] => none
  | c :: cs => if c.isDigit then some (c :: leadingDigits cs) else firstDigitRun cs

/-- `int(match.group())` on a digit run. -/
def natOfDigits (ds : List Char) : Nat :=
  ds.foldl (fun acc c => acc * 10 + (c.toNat - 48)) 0

/-- The first integer literal appearing anywhere in `s`
(`re.search(r"\d+", s)` followed by `int`), or `none` when `s` has no digit. -/
def extractFirstNat (s : String) : Option Nat :=
  (firstDigitRun s.data).map natOfDigits

/-- The ways `MultiAssistant.select_assistant` can raise. -/
inductive SelErr where
  /-- The selection provider call itself raised (or returned an unexpected
  response type): the exception propagates. -/
  | providerError (e : String)
  /-- `ValueError("No assistant index found in the response")`. -/
  | noIndex
  /-- `IndexError` from `self.assistants[index]`. -/
  | indexOutOfRange (i n : Nat)
deriving DecidableEq, Repr

/-- `MultiAssistant.select_assistant`, with an explicit count of completion
provider calls.  `numAssistants` is `len(self.assistants)`; `resp` is the
outcome of the provider call on the selection prompt (consulted only when it
is actually issued).  Returns the selected index (or the raised condition)
together with how many provider calls were made. -/
def selectIndexC (numAssistants : Nat) (resp : Except String String) :
    Except SelErr Nat × Nat :=
  if numAssistants == 1 then
    (Except.ok 0, 0)
  else
    match resp with
    | Except.error e => (Except.error (SelErr.providerError e), 1)
    | Except.ok text =>
        match extractFirstNat text with
        | none => (Except.error SelErr.noIndex, 1)
        | some i =>
            if i < numAssistants then (Except.ok i, 1)
            else (Except.error (SelErr.indexOutOfRange i numAssistants), 1)

/-! ### The router (`MultiAssistant`) -/

/-- A registered assistant as the router sees it: its `process_message`
behavior, its private memory, and its `used_for` description. -/
structure RAssistant where
  procFn : String → Option Memory → Memory → String × Option Memory × Memory
  priv : Memory
  usedFor : String

/-- `MultiAssistant` state: the assistant list and the shared memory. -/
structure RouterState where
  assistants : List RAssistant
  memory : Memory

/-- `MultiAssistant.process_message`: append the user turn to the shared
memory, select an assistant (a raised `SelErr` propagates), delegate to it
passing the shared memory as the `memory` argument, append the returned reply
as an assistant turn to the shared memory, and return the reply. -/
def multiProcess (st : RouterState) (selResp : Except String String)
    (m : String) : Except SelErr (String × RouterState) :=
  let mem1 := addUserMessage st.memory m
  match (selectIndexC st.assistants.length selResp).1 with
  | Except.error e => Except.error e
  | Except.ok i =>
      match st.assistants.get? i with
      | none => Except.error (SelErr.indexOutOfRange i st.assistants.length)
      | some a =>
          let r := a.procFn m (some mem1) a.priv
          Except.ok (r.1,
            RouterState.mk (st.assistants.set i (RAssistant.mk a.procFn r.2.2 a.usedFor))
              (addAiMessage (r.2.1.getD mem1) r.1))

/-- A concrete echo assistant (`SimpleAssistant`). -/
def simpleA : RAssistant :=
  RAssistant.mk (fun m extOpt priv => simpleRun m extOpt priv) []
    "Simple assistant that echoes the input message."

/-! ### Jobs and the scheduler registry
(`src/mpaia/jobs.py`, `src/mpaia/telegram_bot.py`, `src/mpaia/bot.py`) -/

/-- The immutable data of a `Job`: the subclass name (`TelegramMessageJob`,
`TestJob`, ...), the cron expression, the destination chat id and the
prompt. -/
structure JobRepr where
  kind : String
  cron : String
  chatId : Int
  prompt : String
deriving DecidableEq, Repr

/-- `Job.get_id`: the derived identity
`f"{self.__class__.__name__}_{self.cron_expression}_{self.chat_id}"`. -/
def getId (j : JobRepr) : String :=
  j.kind ++ "_" ++ j.cron ++ "_" ++ toString j.chatId

/-- The mutable registry state of a `TelegramBot`: the `self.jobs` dict
(insertion-ordered, unique keys) and the set of job ids currently registered
with the APScheduler instance (`self.scheduler`), in registration order. -/
structure BotState where
  jobs : List (String × JobRepr)
  sched : List String
deriving DecidableEq, Repr

/-- `job_id in self.jobs` on the Python dict. -/
def dictHasKey (d : List (String × JobRepr)) (k : String) : Bool :=
  d.any (fun p => p.1 == k)

/-- `del self.jobs[job_id]`. -/
def dictErase (d : List (String × JobRepr)) (k : String) :
    List (String × JobRepr) :=
  d.filter (fun p => p.1 != k)

/-- `self.jobs[job_id] = job`: replace in place when the key exists, else
append (Python dicts preserve insertion order). -/
def dictInsert (d : List (String × JobRepr)) (k : String) (v : JobRepr) :
    List (String × JobRepr) :=
  if dictHasKey d k then d.map (fun p => if p.1 == k then (k, v) else p)
  else d ++ [(k, v)]

/-- `self.jobs[job_id]` lookup. -/
def dictFind (d : List (String × JobRepr)) (k : String) : Option JobRepr :=
  (d.find? (fun p => p.1 == k)).map (fun p => p.2)

/-- Failures raised by the APScheduler calls. -/
inductive SchedErr where
  /-- `ConflictingIdError`: `scheduler.add_job` with an id already present. -/
  | conflictingId (id : String)
  /-- `JobLookupError`: `scheduler.remove_job` with an id not present. -/
  | jobLookupError (id : String)
deriving DecidableEq, Repr

/-- `self.scheduler.add_job(..., id=job_id)`: raises `ConflictingIdError`
when a job with that id is already scheduled. -/
def schedAdd (s : List String) (id : String) : Except SchedErr (List String) :=
  if s.contains id then Except.error (SchedErr.conflictingId id)
  else Except.ok (s ++ [id])

/-- `self.scheduler.remove_job(job_id)`: raises `JobLookupError` when no job
with that id is scheduled. -/
def schedRemove (s : List String) (id : String) :
    Except SchedErr (List String) :=
  if s.contains id then Except.ok (s.filter (fun x => x != id))
  else Except.error (SchedErr.jobLookupError id)

/-- `TelegramBot.remove_job`: when the id is in `self.jobs`, unregister the
trigger and delete the dict entry; otherwise log a warning and do nothing. -/
def removeJob (st : BotState) (jobId : String) : Except SchedErr BotState :=
  if dictHasKey st.jobs jobId then
    match schedRemove st.sched jobId with
    | Except.error e => Except.error e
    | Except.ok s' => Except.ok (BotState.mk (dictErase st.jobs jobId) s')
  else Except.ok st

/-- `TelegramBot.add_job`: compute the id; if it is already in `self.jobs`,
log a warning and `remove_job` it first; then register the trigger with the
scheduler and record the job in the dict. -/
def addJob (st : BotState) (j : JobRepr) : Except SchedErr BotState :=
  let id := getId j
  match (if dictHasKey st.jobs id then removeJob st id else Except.ok st) with
  | Except.error e => Except.error e
  | Except.ok st1 =>
      match schedAdd st1.sched id with
      | Except.error e => Except.error e
      | Except.ok s' => Except.ok (BotState.mk (dictInsert st1.jobs id j) s')

/-- The registry effect of `TestJob.execute`: after delivering its message it
runs `bot.scheduler.remove_job(self.get_id())` — the scheduler trigger alone
is removed; `bot.jobs` is not touched. -/
def testJobExecuteRegistry (st : BotState) (j : JobRepr) :
    Except SchedErr BotState :=
  match schedRemove st.sched (getId j) with
  | Except.error e => Except.error e
  | Except.ok s' => Except.ok (BotState.mk st.jobs s')

/-- `TelegramBot.list_jobs`: `list(self.jobs.keys())`. -/
def listJobs (st : BotState) : List String :=
  st.jobs.map (fun p => p.1)

/-- The registry/trigger consistency invariant: an id is in the `jobs` dict
exactly when it is registered with the scheduler. -/
def inSync (st : BotState) : Prop :=
  ∀ id : String, dictHasKey st.jobs id = st.sched.contains id

/-- A fresh bot registry (as after `TelegramBot.__init__`). -/
def botEmpty : BotState := BotState.mk [] []

/-- A concrete `TestJob` (`TestJob.__init__` fixes the cron expression to
`"* * * * *"`). -/
def testJob42 : JobRepr := JobRepr.mk "TestJob" "* * * * *" 42 "hi"

/-- A completion provider that always fails with message `boom`. -/
def failingProvider : String → Memory → Except String String :=
  fun _ _ => Except.error "boom"

/-- A completion provider that always replies `yo`. -/
def okProvider : String → Memory → Except String String :=
  fun _ _ => Except.ok "yo"

/-- A concrete provider-backed assistant (`OpenAIAssistant`) wired to
`okProvider`. -/
def openaiA : RAssistant :=
  RAssistant.mk (fun m extOpt priv => openaiRun okProvider m extOpt priv) []
    "OpenAI assistant that uses OpenAI's language model for non-personal questions"

/-! ### Helper lemmas -/

theorem mem_addUserMessage_self (mem : Memory) (m : String) :
    Turn.mk Role.user m ∈ addUserMessage mem m := by
  simp [addUserMessage]

theorem mem_addUserMessage_of_mem {t : Turn} {mem : Memory} (m : String)
    (h : t ∈ mem) : t ∈ addUserMessage mem m := by
  simp [addUserMessage]
  exact Or.inl h

theorem mem_addAiMessage_of_mem {t : Turn} {mem : Memory} (m : String)
    (h : t ∈ mem) : t ∈ addAiMessage mem m := by
  simp [addAiMessage]
  exact Or.inl h

theorem lastTwo_append_two (mem : Memory) (a b : Turn) :
    lastTwo (mem ++ [a, b]) = [a, b] := by
  have h2 : mem.length + 2 - 2 = mem.length := by omega
  have hb : (mem ++ [a, b]).length = mem.length + 2 := by
    simp
  rw [lastTwo, hb, h2, List.drop_left]

theorem firstDigitRun_eq_none {l : List Char} :
    firstDigitRun l = none ↔ ∀ c ∈ l, ¬ c.isDigit := by
  induction l with
  | nil => simp [firstDigitRun]
  | cons c cs ih =>
      by_cases h : c.isDigit
      · simp [firstDigitRun, h]
      · simp [firstDigitRun, h, ih]

theorem extractFirstNat_eq_none {s : String} :
    extractFirstNat s = none ↔ ∀ c ∈ s.data, ¬ c.isDigit := by
  rw [extractFirstNat, Option.map_eq_none', firstDigitRun_eq_none]

/-- Characterization of `multiProcess` when selection succeeds: the user turn
is appended to the shared memory first, the selected assistant is run on the
message with that shared memory, the reply is appended as an assistant turn to
the (possibly delegate-updated) shared memory, and the reply is returned. -/
theorem multiProcess_ok (st : RouterState) (selResp : Except String String)
    (m : String) (i : Nat) (a : RAssistant)
    (hsel : (selectIndexC st.assistants.length selResp).1 = Except.ok i)
    (hget : st.assistants.get? i = some a) :
    multiProcess st selResp m =
      Except.ok ((a.procFn m (some (addUserMessage st.memory m)) a.priv).1,
        RouterState.mk
          (st.assistants.set i (RAssistant.mk a.procFn
            (a.procFn m (some (addUserMessage st.memory m)) a.priv).2.2 a.usedFor))
          (addAiMessage
            (((a.procFn m (some (addUserMessage st.memory m)) a.priv).2.1).getD
              (addUserMessage st.memory m))
            (a.procFn m (some (addUserMessage st.memory m)) a.priv).1)) := by
  unfold multiProcess
  rw [hsel]
  rw [List.get?_eq_getElem?] at hget
  simp [hget]

/-! ### Claim theorems -/

/-- C1: for every message `m`, `MultiAssistant.process_message` performs
exactly this sequence: append `(user, m)` to the router's shared memory,
select one assistant via `select_assistant`, call that assistant's
`process_message` with `m` and the shared memory, append the returned reply
as an assistant turn to the shared memory, and return that reply. -/
theorem claim1_router_process_sequence (st : RouterState)
    (selResp : Except String String) (m : String) (i : Nat) (a : RAssistant)
    (hsel : (selectIndexC st.assistants.length selResp).1 = Except.ok i)
    (hget : st.assistants.get? i = some a) :
    multiProcess st selResp m =
      Except.ok ((a.procFn m (some (addUserMessage st.memory m)) a.priv).1,
        RouterState.mk
          (st.assistants.set i (RAssistant.mk a.procFn
            (a.procFn m (some (addUserMessage st.memory m)) a.priv).2.2 a.usedFor))
          (addAiMessage
            (((a.procFn m (some (addUserMessage st.memory m)) a.priv).2.1).getD
              (addUserMessage st.memory m))
            (a.procFn m (some (addUserMessage st.memory m)) a.priv).1)) :=
  multiProcess_ok st selResp m i a hsel hget

/-- Witness for C1: a single echo assistant, message `"hi"`. -/
theorem claim1_router_process_sequence_witness :
    multiProcess (RouterState.mk [simpleA] []) (Except.ok "resp") "hi" =
      Except.ok ("You said: hi",
        RouterState.mk [simpleA]
          [Turn.mk Role.user "hi", Turn.mk Role.assistant "You said: hi"]) := by
  have h := claim1_router_process_sequence (RouterState.mk [simpleA] [])
    (Except.ok "resp") "hi" 0 simpleA rfl rfl
  rw [h]
  rfl

/-- Counterexample to C2 as stated: the echo assistant (`SimpleAssistant`)
returns a reply but never touches any memory, so with an externally supplied
empty memory the effective memory after the call is still empty — its last
two turns are not `(user, "hi")`, `(assistant, "You said: hi")`. -/
theorem claim2_counterexample :
    (simpleRun "hi" (some ([] : Memory)) []).1 = "You said: hi" ∧
    (simpleRun "hi" (some ([] : Memory)) []).2.1 = some ([] : Memory) ∧
    lastTwo (((simpleRun "hi" (some ([] : Memory)) []).2.1).getD []) ≠
      [Turn.mk Role.user "hi", Turn.mk Role.assistant "You said: hi"] := by
  refine ⟨rfl, rfl, ?_⟩
  decide

/-- C2 (amended): only the provider-backed assistant (`OpenAIAssistant`)
operating on its own memory satisfies the property — when no external memory
is supplied and the provider succeeds with content `c`, the reply is `c` and
the last two turns of its own memory after the call are exactly
`(user, m)` then `(assistant, c)`.  (The echo assistant leaves every memory
unchanged, and the data-query assistant appends only the user turn.) -/
theorem claim2_last_two_turns_amended
    (p : String → Memory → Except String String) (m : String) (priv : Memory)
    (c : String)
    (hp : p m (openaiHistory none (addUserMessage priv m)) = Except.ok c) :
    (openaiRun p m none priv).1 = c ∧
    (openaiRun p m none priv).2.2 =
      priv ++ [Turn.mk Role.user m, Turn.mk Role.assistant c] ∧
    lastTwo (openaiRun p m none priv).2.2 =
      [Turn.mk Role.user m, Turn.mk Role.assistant c] := by
  have h1 : openaiRun p m none priv =
      (c, none, addAiMessage (addUserMessage priv m) c) := by
    unfold openaiRun
    simp only [hp]
  have h2 : addAiMessage (addUserMessage priv m) c =
      priv ++ [Turn.mk Role.user m, Turn.mk Role.assistant c] := by
    simp [addUserMessage, addAiMessage]
  rw [h1, h2]
  exact ⟨rfl, rfl, lastTwo_append_two priv _ _⟩

/-- Witness for C2 (amended): a provider that replies `"yo"` to `"hi"`. -/
theorem claim2_last_two_turns_amended_witness :
    (openaiRun okProvider "hi" none []).1 = "yo" ∧
    (openaiRun okProvider "hi" none []).2.2 =
      [] ++ [Turn.mk Role.user "hi", Turn.mk Role.assistant "yo"] ∧
    lastTwo (openaiRun okProvider "hi" none []).2.2 =
      [Turn.mk Role.user "hi", Turn.mk Role.assistant "yo"] :=
  claim2_last_two_turns_amended okProvider "hi" [] "yo" rfl

/-- C3: with exactly one registered assistant, `select_assistant` returns
that single assistant (index 0) and issues no completion provider call at
all, whatever the provider would have answered (even a failure). -/
theorem claim3_single_assistant_fast_path (a : RAssistant)
    (resp : Except String String) :
    selectIndexC [a].length resp = (Except.ok 0, 0) ∧ [a].get? 0 = some a :=
  ⟨rfl, rfl⟩

/-- C4: with more than one assistant, selection extracts the first integer
literal in the provider's response; no integer yields a raised
`SelectionFailure` (`ValueError`), an out-of-range integer also raises
(`IndexError`), a successful result is always a valid index, and exactly one
provider call is made.  No default assistant is ever silently chosen. -/
theorem claim4_selection_parsing (n : Nat) (text : String) (h : 1 < n) :
    ((∀ c ∈ text.data, ¬ c.isDigit) →
      (selectIndexC n (Except.ok text)).1 = Except.error SelErr.noIndex) ∧
    (∀ i, extractFirstNat text = some i →
      (selectIndexC n (Except.ok text)).1 =
        if i < n then Except.ok i
        else Except.error (SelErr.indexOutOfRange i n)) ∧
    (∀ i, (selectIndexC n (Except.ok text)).1 = Except.ok i → i < n) ∧
    (selectIndexC n (Except.ok text)).2 = 1 := by
  have hne : (n == 1) = false := by
    simp only [beq_eq_false_iff_ne]
    omega
  refine ⟨?_, ?_, ?_, ?_⟩
  · intro hnd
    have h0 : extractFirstNat text = none := extractFirstNat_eq_none.mpr hnd
    simp [selectIndexC, hne, h0]
  · intro i hi
    simp only [selectIndexC, hne, Bool.false_eq_true, if_false, hi]
    split <;> rfl
  · intro i hok
    simp only [selectIndexC, hne, Bool.false_eq_true, if_false] at hok
    rcases h0 : extractFirstNat text with _ | j <;> rw [h0] at hok
    · simp at hok
    · by_cases hj : j < n
      · simp [hj] at hok
        omega
      · simp [hj] at hok
  · simp only [selectIndexC, hne, Bool.false_eq_true, if_false]
    rcases extractFirstNat text with _ | j
    · rfl
    · dsimp only
      split <;> rfl

/-- Witness for C4: two assistants; responses with an in-range integer, no
integer, and an out-of-range integer. -/
theorem claim4_selection_parsing_witness :
    (selectIndexC 2 (Except.ok "assistant 1 please")).1 = Except.ok 1 ∧
    (selectIndexC 2 (Except.ok "no digits here")).1 =
      Except.error SelErr.noIndex ∧
    (selectIndexC 2 (Except.ok "index 7")).1 =
      Except.error (SelErr.indexOutOfRange 7 2) := by
  refine ⟨?_, ?_, ?_⟩
  · have h := (claim4_selection_parsing 2 "assistant 1 please"
      (by decide)).2.1 1 (by decide)
    simpa using h
  · exact (claim4_selection_parsing 2 "no digits here" (by decide)).1
      (by decide)
  · have h := (claim4_selection_parsing 2 "index 7" (by decide)).2.1 7
      (by decide)
    simpa using h

/-- C5: when the completion provider call inside
`OpenAIAssistant.process_message` raises, `process_message` does not raise:
it returns a user-facing error string, and the user turn appended before the
provider call remains in the assistant's memory (no rollback). -/
theorem claim5_provider_failure_recovery
    (p : String → Memory → Except String String) (m : String)
    (extOpt : Option Memory) (priv : Memory) (e : String)
    (hp : p m (openaiHistory extOpt (addUserMessage priv m)) =
      Except.error e) :
    (openaiRun p m extOpt priv).1 = "An error occurred: " ++ e ∧
    (openaiRun p m extOpt priv).2.2 = addUserMessage priv m ∧
    Turn.mk Role.user m ∈ (openaiRun p m extOpt priv).2.2 := by
  have h1 : openaiRun p m extOpt priv =
      ("An error occurred: " ++ e, extOpt, addUserMessage priv m) := by
    unfold openaiRun
    simp only [hp]
  rw [h1]
  exact ⟨rfl, rfl, mem_addUserMessage_self priv m⟩

/-- Witness for C5: a provider that raises `boom` on message `"hi"`. -/
theorem claim5_provider_failure_recovery_witness :
    (openaiRun failingProvider "hi" none []).1 = "An error occurred: boom" ∧
    (openaiRun failingProvider "hi" none []).2.2 =
      addUserMessage [] "hi" ∧
    Turn.mk Role.user "hi" ∈ (openaiRun failingProvider "hi" none []).2.2 :=
  claim5_provider_failure_recovery failingProvider "hi" none [] "boom" rfl

/-- C9: when the router delegates a message to a provider-backed
(`OpenAIAssistant`) or data-query (`DataAssistant`) assistant, passing its
shared memory, the user turn ends up both in the router's shared memory
(appended by the router) and, redundantly, in the delegated assistant's own
private memory (appended by the assistant). -/
theorem claim9_duplicate_user_turn (st : RouterState)
    (selResp : Except String String) (m : String) (i : Nat) (a : RAssistant)
    (p : String → Memory → Except String String)
    (ag : Memory → Except String String)
    (hget : st.assistants.get? i = some a)
    (hsel : (selectIndexC st.assistants.length selResp).1 = Except.ok i)
    (hkind : a.procFn = openaiRun p ∨ a.procFn = dataRun ag) :
    ∃ reply st', multiProcess st selResp m = Except.ok (reply, st') ∧
      Turn.mk Role.user m ∈ st'.memory ∧
      st'.assistants = st.assistants.set i (RAssistant.mk a.procFn
        (a.procFn m (some (addUserMessage st.memory m)) a.priv).2.2
        a.usedFor) ∧
      Turn.mk Role.user m ∈
        (a.procFn m (some (addUserMessage st.memory m)) a.priv).2.2 := by
  have heq := multiProcess_ok st selResp m i a hsel hget
  refine ⟨_, _, heq, ?_, rfl, ?_⟩
  · have hmem : Turn.mk Role.user m ∈
        ((a.procFn m (some (addUserMessage st.memory m)) a.priv).2.1).getD
          (addUserMessage st.memory m) := by
      rcases hkind with hk | hk
      · rw [hk]
        unfold openaiRun
        rcases okProviderCase : p m (openaiHistory (some (addUserMessage st.memory m))
            (addUserMessage a.priv m)) with e | c <;>
          simp only [okProviderCase] <;>
          exact mem_addUserMessage_self st.memory m
      · rw [hk]
        unfold dataRun
        rcases agCase : ag (addUserMessage (addUserMessage st.memory m) m) with e | r <;>
          simp only [agCase] <;>
          exact mem_addUserMessage_of_mem m (mem_addUserMessage_self st.memory m)
    exact mem_addAiMessage_of_mem _ hmem
  · rcases hkind with hk | hk
    · rw [hk]
      unfold openaiRun
      rcases okProviderCase : p m (openaiHistory (some (addUserMessage st.memory m))
          (addUserMessage a.priv m)) with e | c <;>
        simp only [okProviderCase]
      · exact mem_addUserMessage_self a.priv m
      · exact mem_addAiMessage_of_mem _ (mem_addUserMessage_self a.priv m)
    · rw [hk]
      unfold dataRun
      rcases agCase : ag (addUserMessage (addUserMessage st.memory m) m) with e | r <;>
        simp only [agCase] <;>
        exact mem_addUserMessage_self a.priv m

/-- Witness for C9: a single provider-backed assistant, message `"hi"`. -/
theorem claim9_duplicate_user_turn_witness :
    ∃ reply st',
      multiProcess (RouterState.mk [openaiA] []) (Except.ok "0") "hi" =
        Except.ok (reply, st') ∧
      Turn.mk Role.user "hi" ∈ st'.memory ∧
      st'.assistants = [openaiA].set 0 (RAssistant.mk openaiA.procFn
        (openaiA.procFn "hi" (some (addUserMessage [] "hi")) openaiA.priv).2.2
        openaiA.usedFor) ∧
      Turn.mk Role.user "hi" ∈
        (openaiA.procFn "hi" (some (addUserMessage [] "hi")) openaiA.priv).2.2 :=
  claim9_duplicate_user_turn (RouterState.mk [openaiA] []) (Except.ok "0")
    "hi" 0 openaiA okProvider (fun _ => Except.ok "") rfl rfl (Or.inl rfl)

/-- C10: `OpenAIAssistant.process_message` with an externally supplied memory
only reads it: the external memory is returned unchanged, while the user turn
(and, on success, the reply turn) is appended exclusively to the assistant's
own private memory. -/
theorem claim10_external_memory_read_only
    (p : String → Memory → Except String String) (m : String)
    (ext priv : Memory) :
    (openaiRun p m (some ext) priv).2.1 = some ext ∧
    ((openaiRun p m (some ext) priv).2.2 =
        addAiMessage (addUserMessage priv m) (openaiRun p m (some ext) priv).1
      ∨ (openaiRun p m (some ext) priv).2.2 = addUserMessage priv m) := by
  unfold openaiRun
  rcases hp : p m (openaiHistory (some ext) (addUserMessage priv m)) with e | c <;>
    simp [hp]

/-! ### Registry helper lemmas -/

theorem hasKey_erase_self (d : List (String × JobRepr)) (k : String) :
    dictHasKey (dictErase d k) k = false := by
  simp [dictHasKey, dictErase, List.any_eq_true, List.mem_filter]

theorem hasKey_erase_ne (d : List (String × JobRepr)) (k k' : String)
    (h : k' ≠ k) : dictHasKey (dictErase d k) k' = dictHasKey d k' := by
  induction d with
  | nil => rfl
  | cons p d ih =>
      by_cases hp : p.1 = k
      · simp [dictErase, dictHasKey, List.filter_cons, hp, h] at ih ⊢
        rw [ih]
        simp [Ne.symm h]
      · simp [dictErase, dictHasKey, List.filter_cons, hp] at ih ⊢
        rw [← ih]

theorem erase_of_hasKey_false (d : List (String × JobRepr)) (k : String)
    (h : dictHasKey d k = false) : dictErase d k = d := by
  unfold dictErase
  rw [List.filter_eq_self.mpr]
  intro p hp
  simp [dictHasKey, List.any_eq_true] at h
  simpa using h p.1 p.2 hp

theorem contains_filter_self (s : List String) (id : String) :
    (s.filter (fun x => x != id)).contains id = false := by
  simp [List.contains, List.mem_filter]

theorem contains_filter_ne (s : List String) (k id : String) (h : k ≠ id) :
    (s.filter (fun x => x != id)).contains k = s.contains k := by
  simp [List.contains, List.mem_filter]
  intro hk
  simp [h]

theorem filter_of_contains_false (s : List String) (id : String)
    (h : s.contains id = false) : s.filter (fun x => x != id) = s := by
  rw [List.filter_eq_self.mpr]
  intro x hx
  simp at h
  simp
  exact fun he => h (he ▸ hx)

theorem dictInsert_of_hasKey_false (d : List (String × JobRepr)) (k : String)
    (v : JobRepr) (h : dictHasKey d k = false) :
    dictInsert d k v = d ++ [(k, v)] := by
  unfold dictInsert
  rw [h]
  simp

theorem hasKey_append (d₁ d₂ : List (String × JobRepr)) (k : String) :
    dictHasKey (d₁ ++ d₂) k = (dictHasKey d₁ k || dictHasKey d₂ k) := by
  simp [dictHasKey, List.any_append]

theorem count_keys_eq_zero (d : List (String × JobRepr)) (k : String)
    (h : dictHasKey d k = false) : (d.map (fun p => p.1)).count k = 0 := by
  rw [List.count_eq_zero]
  intro hmem
  simp [dictHasKey, List.any_eq_true] at h
  rcases List.mem_map.mp hmem with ⟨p, hp, hpk⟩
  exact h p.1 p.2 hp hpk

theorem count_filter_ne_self (s : List String) (id : String) :
    (s.filter (fun x => x != id)).count id = 0 := by
  rw [List.count_eq_zero]
  simp [List.mem_filter]

/-- From a consistent registry, `add_job` never raises and yields the state
where every entry under the job's identity was dropped from both the dict and
the scheduler, and the new job was appended to both. -/
theorem addJob_of_inSync (st : BotState) (j : JobRepr) (h : inSync st) :
    addJob st j = Except.ok (BotState.mk
      (dictErase st.jobs (getId j) ++ [(getId j, j)])
      (st.sched.filter (fun x => x != getId j) ++ [getId j])) := by
  by_cases hk : dictHasKey st.jobs (getId j) = true
  · have hs : st.sched.contains (getId j) = true := (h (getId j)) ▸ hk
    have hf : (st.sched.filter (fun x => x != getId j)).contains (getId j)
        = false := contains_filter_self _ _
    have he : dictHasKey (dictErase st.jobs (getId j)) (getId j) = false :=
      hasKey_erase_self _ _
    simp only [addJob, removeJob, schedRemove, schedAdd, hk, hs, hf, he,
      if_true, if_false, Bool.false_eq_true]
    rw [dictInsert_of_hasKey_false _ _ _ he]
  · have hk' : dictHasKey st.jobs (getId j) = false := by simpa using hk
    have hs : st.sched.contains (getId j) = false := (h (getId j)) ▸ hk'
    simp only [addJob, schedAdd, hk', hs, if_false, Bool.false_eq_true]
    rw [dictInsert_of_hasKey_false _ _ _ hk', erase_of_hasKey_false _ _ hk',
      filter_of_contains_false _ _ hs]

/-- The state produced by a successful `add_job` is again consistent. -/
theorem inSync_addResult (st : BotState) (id : String) (j : JobRepr)
    (h : inSync st) :
    inSync (BotState.mk (dictErase st.jobs id ++ [(id, j)])
      (st.sched.filter (fun x => x != id) ++ [id])) := by
  intro k
  show dictHasKey (dictErase st.jobs id ++ [(id, j)]) k
      = (st.sched.filter (fun x => x != id) ++ [id]).contains k
  rw [hasKey_append]
  by_cases hk : k = id
  · subst hk
    rw [hasKey_erase_self]
    simp [dictHasKey, List.contains]
  · rw [hasKey_erase_ne _ _ _ hk]
    have h2 : (st.sched.filter (fun x => x != id) ++ [id]).contains k
        = ((st.sched.filter (fun x => x != id)).contains k
            || ([id] : List String).contains k) := by
      simp [List.contains]
    rw [h2, contains_filter_ne _ _ _ hk, h k]
    have h3 : dictHasKey [(id, j)] k = false := by
      simp [dictHasKey, Ne.symm hk]
    have h4 : ([id] : List String).contains k = false := by
      simp [List.contains, hk]
    rw [h3, h4]

/-- C6: adding two jobs with identical kind, recurrence and destination (from
any consistent registry) never raises; afterwards exactly one job is active
under that identity — the newer one — and both `list_jobs` and the scheduler
report the identity exactly once. -/
theorem claim6_add_job_idempotent (st : BotState) (j1 j2 : JobRepr)
    (hs : inSync st) (hk : j1.kind = j2.kind) (hc : j1.cron = j2.cron)
    (hd : j1.chatId = j2.chatId) :
    ∃ st1 st2, addJob st j1 = Except.ok st1 ∧ addJob st1 j2 = Except.ok st2 ∧
      (listJobs st2).count (getId j2) = 1 ∧
      st2.sched.count (getId j2) = 1 ∧
      dictFind st2.jobs (getId j2) = some j2 ∧
      dictFind st2.jobs (getId j1) = some j2 := by
  have hid : getId j1 = getId j2 := by
    rw [getId, getId, hk, hc, hd]
  have h1 := addJob_of_inSync st j1 hs
  rw [hid] at h1
  have hs1 : inSync (BotState.mk
      (dictErase st.jobs (getId j2) ++ [(getId j2, j1)])
      (st.sched.filter (fun x => x != getId j2) ++ [getId j2])) := by
    have h0 := inSync_addResult st (getId j1) j1 hs
    rwa [hid] at h0
  have h2 := addJob_of_inSync
    (BotState.mk (dictErase st.jobs (getId j2) ++ [(getId j2, j1)])
      (st.sched.filter (fun x => x != getId j2) ++ [getId j2])) j2 hs1
  have hfind : dictFind
      (dictErase (dictErase st.jobs (getId j2) ++ [(getId j2, j1)]) (getId j2)
        ++ [(getId j2, j2)]) (getId j2) = some j2 := by
    rw [dictFind, List.find?_append]
    have hnone : (dictErase (dictErase st.jobs (getId j2) ++ [(getId j2, j1)])
        (getId j2)).find? (fun p => p.1 == getId j2) = none := by
      rw [List.find?_eq_none]
      intro p hp
      have := hasKey_erase_self
        (dictErase st.jobs (getId j2) ++ [(getId j2, j1)]) (getId j2)
      simp [dictHasKey, List.any_eq_true] at this
      simpa using this p.1 p.2 hp
    rw [hnone]
    simp
  refine ⟨_, _, h1, h2, ?_, ?_, hfind, by rw [hid]; exact hfind⟩
  · show ((dictErase _ (getId j2) ++ [(getId j2, j2)]).map
      (fun p => p.1)).count (getId j2) = 1
    rw [List.map_append, List.count_append,
      count_keys_eq_zero _ _ (hasKey_erase_self _ _)]
    simp
  · show (List.filter _ _ ++ [getId j2]).count (getId j2) = 1
    rw [List.count_append, count_filter_ne_self]
    simp

/-- Two `TelegramMessageJob`s sharing kind, cron and chat id. -/
def jobA : JobRepr := JobRepr.mk "TelegramMessageJob" "0 9 * * *" 7 "p1"

/-- The same identity as `jobA`, different prompt. -/
def jobA' : JobRepr := JobRepr.mk "TelegramMessageJob" "0 9 * * *" 7 "p2"

/-- Witness for C6: both jobs added to a fresh bot. -/
theorem claim6_add_job_idempotent_witness :
    ∃ st1 st2, addJob botEmpty jobA = Except.ok st1 ∧
      addJob st1 jobA' = Except.ok st2 ∧
      (listJobs st2).count (getId jobA') = 1 ∧
      st2.sched.count (getId jobA') = 1 ∧
      dictFind st2.jobs (getId jobA') = some jobA' ∧
      dictFind st2.jobs (getId jobA) = some jobA' :=
  claim6_add_job_idempotent botEmpty jobA jobA' (fun _ => rfl) rfl rfl rfl

/-- C7 evaluated at the failing input: after registering `testJob42` and
running `TestJob.execute` once, the scheduler trigger is gone (the job cannot
fire again) but `list_jobs` still contains the job's identity — the claim's
`list_jobs() no longer contains its id` is violated by the code. -/
theorem claim7_one_shot_removal_eval :
    ∃ st1 st2, addJob botEmpty testJob42 = Except.ok st1 ∧
      testJobExecuteRegistry st1 testJob42 = Except.ok st2 ∧
      (listJobs st2).contains (getId testJob42) = true ∧
      st2.sched.contains (getId testJob42) = false := by
  refine ⟨BotState.mk [(getId testJob42, testJob42)] [getId testJob42],
    BotState.mk [(getId testJob42, testJob42)] [], rfl, ?_, rfl, rfl⟩
  unfold testJobExecuteRegistry schedRemove
  simp

/-- C8 evaluated at the failing input: the same `TestJob` execution leaves
the `jobs` dict and the scheduler's id set diverged, breaking the claimed
invariant in a reachable state. -/
theorem claim8_sync_invariant_eval :
    ∃ st1 st2, addJob botEmpty testJob42 = Except.ok st1 ∧
      testJobExecuteRegistry st1 testJob42 = Except.ok st2 ∧
      ¬ inSync st2 := by
  refine ⟨BotState.mk [(getId testJob42, testJob42)] [getId testJob42],
    BotState.mk [(getId testJob42, testJob42)] [], rfl, ?_, ?_⟩
  · unfold testJobExecuteRegistry schedRemove
    simp
  · intro h
    have := h (getId testJob42)
    simp [dictHasKey, List.contains] at this

end Mpaia
